import Mathlib

/-!
Shallow embedding of the agent orchestration core of browser-operator-core:
the run loop of `AgentRunner.run` / `AgentRunner.executeHandoff`
(src/front_end/panels/ai_chat/agent_framework/AgentRunner.ts), the response
interpretation of `UnifiedLLMClient.parseResponse`
(src/front_end/panels/ai_chat/core/UnifiedLLMClient.ts) and the
`sanitizeToolResultForText` helper exercised by src/test_sanitization.js.

Modelling conventions: JavaScript objects are finite association lists of
`JValue`; machine strings are Lean `String`; `crypto.randomUUID` is modelled
as a fresh counter threaded through the loop (ids are globally fresh, which
is the intended semantics of random UUIDs); `JSON.stringify(v, null, 2)` is
modelled by a canonical compact stringification (same fields and text
content, whitespace layout abstracted); thrown exceptions are `Except.error`.
String literals from the source keep their wording except that quote
decorations inside the messages are elided.
-/

namespace BrowserOperator

/-- JSON-like runtime values (the ad hoc `any` data flowing through tools). -/
inductive JValue where
  | jnull
  | jbool (b : Bool)
  | jnum (n : Int)
  | jstr (s : String)
  | jarr (elems : List JValue)
  | jobj (fields : List (String × JValue))

/-- Property lookup on an object field list (first binding wins, as in a JS
object literal, which cannot contain duplicate keys at runtime). -/
def jGet (fields : List (String × JValue)) (k : String) : Option JValue :=
  (fields.find? (fun p => p.1 == k)).map (fun p => p.2)

/-- Property access `v.k` as JavaScript evaluates it: defined only on
objects, `undefined` (here `none`) on every other value. -/
def jAccess (v : JValue) (k : String) : Option JValue :=
  match v with
  | .jobj fields => jGet fields k
  | _ => none

/-- JavaScript truthiness of a value. -/
def truthy : JValue → Bool
  | .jnull => false
  | .jbool b => b
  | .jnum n => n != 0
  | .jstr s => s != ""
  | .jarr _ => true
  | .jobj _ => true

-- JavaScript String(v) coercion (used where the source assigns a raw
-- field value into a string slot).
mutual

def jsToString : JValue → String
  | .jnull => "null"
  | .jbool true => "true"
  | .jbool false => "false"
  | .jnum n => toString n
  | .jstr s => s
  | .jarr xs => String.intercalate "," (jsToStringList xs)
  | .jobj _ => "[object Object]"

def jsToStringList : List JValue → List String
  | [] => []
  | v :: rest => jsToString v :: jsToStringList rest

end

/-- `a || b` on an optional field value with a string fallback:
the coerced field value when present and truthy, else the fallback. -/
def jsOrText (o : Option JValue) (fallback : String) : String :=
  match o with
  | some v => if truthy v then jsToString v else fallback
  | none => fallback

/-- `a || b` on an optional field value with a `JValue` fallback. -/
def jsOrJ (o : Option JValue) (fallback : JValue) : JValue :=
  match o with
  | some v => if truthy v then v else fallback
  | none => fallback

-- Canonical stringification, standing for JSON.stringify(v, null, 2):
-- identical field names and text content, whitespace layout abstracted.
mutual

def stringifyJ : JValue → String
  | .jnull => "null"
  | .jbool true => "true"
  | .jbool false => "false"
  | .jnum n => toString n
  | .jstr s => "\"" ++ s ++ "\""
  | .jarr xs => "[" ++ String.intercalate "," (stringifyJList xs) ++ "]"
  | .jobj fs => "\x7b" ++ String.intercalate "," (stringifyJFields fs) ++ "\x7d"

def stringifyJList : List JValue → List String
  | [] => []
  | v :: rest => stringifyJ v :: stringifyJList rest

def stringifyJFields : List (String × JValue) → List String
  | [] => []
  | p :: rest => ("\"" ++ p.1 ++ "\":" ++ stringifyJ p.2) :: stringifyJFields rest

end

/-- Substring test on character lists: `pat` occurs inside `l`. -/
def subListAt (pat : List Char) : List Char → Bool
  | [] => pat.isEmpty
  | c :: rest => pat.isPrefixOf (c :: rest) || subListAt pat rest

/-- `s.includes(pat)` of JavaScript. -/
def strContains (s pat : String) : Bool :=
  subListAt pat.toList s.toList

/-- `s.startsWith(pre)` of JavaScript. -/
def strStartsWith (s pre : String) : Bool :=
  pre.toList.isPrefixOf s.toList

/-- An ASCII whitespace character (the relevant cases of `trim`). -/
def isWS (c : Char) : Bool :=
  c == ' ' || c == '\t' || c == '\n' || c == '\r'

/-- `s.trim()` of JavaScript, over the ASCII whitespace characters. -/
def strTrim (s : String) : String :=
  String.mk (((s.toList.dropWhile isWS).reverse.dropWhile isWS).reverse)

/-- `a || b` for an optional string whose empty value is falsy. -/
def jsStrOr (o : Option String) (d : String) : String :=
  match o with
  | some s => if s != "" then s else d
  | none => d

/-- `a || b` for an optional number: `0` is falsy. -/
def jsNatOr (o : Option Nat) (d : Nat) : Nat :=
  match o with
  | some n => if n != 0 then n else d
  | none => d

/-- Truthiness of an optional field value (`undefined` is falsy). -/
def truthyO (o : Option JValue) : Bool :=
  match o with
  | some v => truthy v
  | none => false

/-! ## Message log (the `ChatMessage` variants consumed by AgentRunner) -/

/-- The closed message variant of the conversation log: user messages,
model tool-call messages (`action: tool`), model final answers
(`action: final`) and tool results. `toolCallId` values are `Nat`
(modelling `crypto.randomUUID`). -/
inductive ChatMessage where
  | user (text : String)
  | modelTool (toolName : String) (toolArgs : JValue) (toolCallId : Nat)
      (reasoning : Option String)
  | modelFinal (answer : String) (reasoning : Option String)
  | toolResult (toolName : String) (resultText : String) (isError : Bool)
      (toolCallId : Option Nat) (resultData : Option JValue)

/-- The `AgentRunTerminationReason` values of the source. -/
inductive TermReason where
  | final_answer
  | error
  | max_iterations
  | handed_off
deriving DecidableEq

/-- `HandoffTrigger` values. -/
inductive HandoffTrigger where
  | llm_tool_call
  | max_iterations
deriving DecidableEq

/-- A `HandoffConfig` entry of an agent configuration. -/
structure HandoffConfig where
  targetAgentName : String
  trigger : Option HandoffTrigger := none
  includeToolResults : Option (List String) := none

/-- The result shape returned by the runner.
Modelled from the spec: `ConfigurableAgentResult` is declared in
`ConfigurableAgentTool.ts`, which is not under src; the fields are those
AgentRunner.ts reads and writes (`success`, `intermediateSteps`,
`terminationReason`) together with the output and error text of the spec
`RunResult`. -/
structure AgentResult where
  success : Bool
  output : Option String := none
  error : Option String := none
  terminationReason : Option TermReason := none
  intermediateSteps : Option (List ChatMessage) := none

/-- Static agent configuration (`ConfigurableAgentTool.config`), with the
fields AgentRunner.ts and its handoff logic read. The custom result hooks
of a target agent are modelled as already partially applied to the config,
matching how executeHandoff closes over `targetConfig`. -/
structure AgentConfig where
  name : String
  systemPrompt : String
  tools : List String
  modelName : Option String := none
  maxIterations : Option Nat := none
  temperature : Option Int := none
  handoffs : Option (List HandoffConfig) := none
  includeIntermediateStepsOnReturn : Option Bool := none
  createSuccessResultC : Option (String → List ChatMessage → TermReason → AgentResult) := none
  createErrorResultC : Option (String → List ChatMessage → TermReason → AgentResult) := none

/-- A registered tool: a name, the agent configuration when the tool is a
`ConfigurableAgentTool` (the `instanceof` test of the source), and its
`execute` behaviour. A throwing `execute` is `Except.error`. For agent
tools `exec` stands for `ConfigurableAgentTool.execute`, which is not under
src; no claim depends on it and theorems quantify over it. -/
structure RegTool where
  name : String
  agentCfg : Option AgentConfig := none
  exec : JValue → Except String JValue

/-- The global `ToolRegistry.getRegisteredTool` mapping. -/
def Registry : Type := String → Option RegTool

/-- The parsed model action (`ParsedLLMAction` of the source). -/
inductive ParsedLLMAction where
  | tool_call (name : String) (args : JValue)
  | final_answer (answer : String)
  | error (msg : String)

/-- One successful gateway interaction: the parsed action together with the
optional reasoning summary attached to the raw response. -/
structure LLMStep where
  action : ParsedLLMAction
  reasoning : Option String := none

/-- The LLM gateway as an oracle: agent name and iteration index determine
the outcome of `llm.call` plus response parsing; a thrown transport failure
is `Except.error`. -/
def Gateway : Type := String → Nat → Except String LLMStep

/-- `AgentRunnerConfig` (apiKey omitted: never branched on). -/
structure RunnerConfig where
  modelName : String := ""
  systemPrompt : String := ""
  tools : List RegTool := []
  maxIterations : Nat
  temperature : Option Int := none

/-- `AgentRunnerHooks`. -/
structure RunnerHooks where
  prepareInitialMessages : Option (List ChatMessage → List ChatMessage) := none
  createSuccessResult : String → List ChatMessage → TermReason → AgentResult
  createErrorResult : String → List ChatMessage → TermReason → AgentResult

/-- Modelled from the spec: the default result creators supplied by
`ConfigurableAgentTool` (not under src). A success result carries the
output, the message log and the reason; an error result carries the error
text, the message log and the reason — the spec says every run resolves to
a structured `RunResult` exposing `messageLog` and `terminationReason`. -/
def defaultHooks : RunnerHooks :=
  { createSuccessResult := fun out steps reason =>
      { success := true, output := some out, terminationReason := some reason,
        intermediateSteps := some steps },
    createErrorResult := fun err steps reason =>
      { success := false, error := some err, terminationReason := some reason,
        intermediateSteps := some steps } }

/-- The message log a result exposes. -/
def stepsOf (r : AgentResult) : List ChatMessage :=
  r.intermediateSteps.getD []

/-- `prepareInitialMessages` application at the top of `AgentRunner.run`. -/
def prepMsgs (hooks : RunnerHooks) (initialMessages : List ChatMessage) : List ChatMessage :=
  match hooks.prepareInitialMessages with
  | some f => f initialMessages
  | none => initialMessages

/-! ## Tool map construction and tool-result classification -/

/-- `Map.get` over entries built with `Map.set`: the latest entry wins. -/
def lookupTool (l : List (String × RegTool)) (n : String) : Option RegTool :=
  (l.reverse.find? (fun p => p.1 == n)).map (fun p => p.2)

/-- Does a handoff trigger admit an LLM tool call
(`!trigger || trigger === llm_tool_call`)? -/
def isLLMTrigger (t : Option HandoffTrigger) : Bool :=
  match t with
  | none => true
  | some .llm_tool_call => true
  | some .max_iterations => false

/-- The synthesized `handoff_to_X` tool-map entries added for the executing
agent (AgentRunner.run lines 299 to 326): one entry per handoff rule with an
LLM trigger whose target is a registered `ConfigurableAgentTool`; missing
targets are skipped with a warning. -/
def handoffEntries (reg : Registry) (executingAgent : Option AgentConfig) :
    List (String × RegTool) :=
  match executingAgent with
  | none => []
  | some a =>
    (a.handoffs.getD []).foldl
      (fun acc hc =>
        if isLLMTrigger hc.trigger then
          match reg hc.targetAgentName with
          | some t =>
            if t.agentCfg.isSome then
              acc ++ [("handoff_to_" ++ hc.targetAgentName, t)]
            else acc
          | none => acc
        else acc)
      []

/-- The tool map of a run: configured tools plus synthesized handoff tools. -/
def buildToolMap (reg : Registry) (tools : List RegTool)
    (executingAgent : Option AgentConfig) : List (String × RegTool) :=
  tools.map (fun t => (t.name, t)) ++ handoffEntries reg executingAgent

/-- The text form of a raw tool return value before error classification:
a string result is used verbatim, anything else is stringified. -/
def baseTextOf (v : JValue) : String :=
  match v with
  | .jstr s => s
  | _ => stringifyJ v

/-- The `success === false` arm of the classification. -/
def successCheck (fs : List (String × JValue)) (base : String) : Bool × String :=
  match jGet fs "success" with
  | some (.jbool false) =>
    (true, jsOrText (jGet fs "error") (jsOrText (jGet fs "message") base))
  | _ => (false, base)

/-- Data-driven classification of a raw tool return value
(AgentRunner.run lines 649 to 662): an object with a truthy `error` field,
or with `success === false`, is an error; the pair is
(isError, resultText). -/
def toolOutcomeOf (v : JValue) : Bool × String :=
  let base := baseTextOf v
  match v with
  | .jobj fs =>
    (match jGet fs "error" with
     | some e =>
       if truthy e then (true, jsOrText (jGet fs "error") base)
       else successCheck fs base
     | none => successCheck fs base)
  | _ => (false, base)

/-! ## Handoff message filtering -/

/-- The per-message predicate of the handoff filter
(AgentRunner.executeHandoff lines 142 to 160): user messages and final
answers always pass; a tool-call message passes when its (truthy) tool name
is listed; a tool result passes when it is not an error and its (truthy)
tool name is listed. -/
def keepForHandoff (allowed : List String) (m : ChatMessage) : Bool :=
  match m with
  | .user _ => true
  | .modelFinal _ _ => true
  | .modelTool tn _ _ _ => if tn != "" then allowed.contains tn else false
  | .toolResult tn _ isErr _ _ => !isErr && (tn != "" && allowed.contains tn)

/-- The transferred message set of a handoff: filtered when
`includeToolResults` is present and non-empty, the full history otherwise. -/
def handoffMessagesOf (hc : HandoffConfig) (msgs : List ChatMessage) : List ChatMessage :=
  match hc.includeToolResults with
  | some l => if 0 < l.length then msgs.filter (keepForHandoff l) else msgs
  | none => msgs

/-! ## Fresh tool-call identifiers -/

/-- A strict upper bound for the identifiers a message mentions. -/
def msgIdBound : ChatMessage → Nat
  | .modelTool _ _ i _ => i + 1
  | .toolResult _ _ _ (some i) _ => i + 1
  | _ => 0

/-- The first identifier not used by any message of the log: models the
global freshness of `crypto.randomUUID`. -/
def freshIdBase (msgs : List ChatMessage) : Nat :=
  msgs.foldr (fun m acc => max (msgIdBound m) acc) 0

/-! ## The orchestration loop -/

/-- The catch-all of the action-processing block (AgentRunner.run lines
702 to 716): a thrown loop error is recorded as a `system_error` tool
result (carrying no toolCallId) and ends the run with an error result. -/
def loopError (hooks : RunnerHooks) (messages : List ChatMessage) (inner : String) : AgentResult :=
  let errorMsg := "Agent loop error: " ++ inner
  hooks.createErrorResult errorMsg
    (messages ++ [.toolResult "system_error" errorMsg true none none]) .error

/-- The handoff rule matched for an LLM-triggered `handoff_to_X` call
(AgentRunner.run lines 618 to 621). -/
def findLLMHandoff (executingAgent : Option AgentConfig) (targetName : String) :
    Option HandoffConfig :=
  match executingAgent with
  | some a =>
    (a.handoffs.getD []).find?
      (fun h => h.targetAgentName == targetName && isLLMTrigger h.trigger)
  | none => none

/-- The `max_iterations` handoff rule of the executing agent, if any
(AgentRunner.run lines 722 to 723). -/
def handoffAtMax : Option AgentConfig → Option HandoffConfig
  | some a =>
    (a.handoffs.getD []).find?
      (fun h => match h.trigger with
                | some .max_iterations => true
                | _ => false)
  | none => none

/-- The iteration loop of `AgentRunner.run` (lines 330 to 744), structurally
recursive on the remaining iteration budget. `hx` performs a handoff (it is
instantiated with `executeHandoffWith` one fuel level down); `iteration` is
the 0-based loop counter; `nextId` the next fresh toolCallId. -/
def loopF (gw : Gateway) (hooks : RunnerHooks) (executingAgent : Option AgentConfig)
    (toolMap : List (String × RegTool))
    (hx : List ChatMessage → JValue → HandoffConfig → Option JValue → AgentResult)
    (args : JValue) (maxIterations : Nat) :
    Nat → Nat → List ChatMessage → Nat → AgentResult
  | 0, _, messages, _ =>
    (match handoffAtMax executingAgent with
     | some hc => hx messages args hc none
     | none =>
       hooks.createErrorResult
         ("Agent reached maximum iterations (" ++ toString maxIterations ++ ")")
         messages .max_iterations)
  | remaining + 1, iteration, messages, nextId =>
    let agentName := (executingAgent.map AgentConfig.name).getD "Unknown"
    match gw agentName iteration with
    | .error e =>
      let errorMsg := "LLM call failed: " ++ e
      hooks.createErrorResult errorMsg
        (messages ++ [.toolResult "system_error" errorMsg true none none]) .error
    | .ok step =>
      match step.action with
      | .tool_call toolName toolArgs =>
        let toolCallId := nextId
        let messages1 := messages ++ [.modelTool toolName toolArgs toolCallId step.reasoning]
        (match lookupTool toolMap toolName with
         | none => loopError hooks messages1 ("Agent requested unknown tool: " ++ toolName)
         | some toolToExecute =>
           if strStartsWith toolName "handoff_to_" && toolToExecute.agentCfg.isSome then
             match findLLMHandoff executingAgent toolToExecute.name with
             | none =>
               loopError hooks messages1
                 ("Internal error: No matching llm_tool_call handoff config found for " ++ toolName)
             | some hc => hx messages1 toolArgs hc (some toolArgs)
           else
             match toolToExecute.exec toolArgs with
             | .error err =>
               let txt := "Error during tool execution: " ++ err
               let messages2 := messages1 ++
                 [.toolResult toolName txt true (some toolCallId)
                   (some (.jobj [("error", .jstr txt)]))]
               loopF gw hooks executingAgent toolMap hx args maxIterations
                 remaining (iteration + 1) messages2 (nextId + 1)
             | .ok v =>
               let outcome := toolOutcomeOf v
               let messages2 := messages1 ++
                 [.toolResult toolName outcome.2 outcome.1 (some toolCallId)
                   (if truthy v then some v else none)]
               loopF gw hooks executingAgent toolMap hx args maxIterations
                 remaining (iteration + 1) messages2 (nextId + 1))
      | .final_answer answer =>
        hooks.createSuccessResult answer
          (messages ++ [.modelFinal answer step.reasoning]) .final_answer
      | .error e => loopError hooks messages e

/-- The runner configuration constructed for a handoff target
(AgentRunner.executeHandoff lines 171 to 182): each unset field falls back
to the delegating runner value, with JavaScript falsiness for the
string/number fallbacks. -/
def targetRunnerConfigOf (reg : Registry) (targetConfig : AgentConfig)
    (defaultModelName : String) (defaultMaxIterations : Nat)
    (defaultTemperature : Int) : RunnerConfig :=
  { modelName := jsStrOr targetConfig.modelName defaultModelName,
    systemPrompt := targetConfig.systemPrompt,
    tools := targetConfig.tools.filterMap reg,
    maxIterations := jsNatOr targetConfig.maxIterations defaultMaxIterations,
    temperature := some (targetConfig.temperature.getD defaultTemperature) }

/-- The hooks constructed for a handoff target (lines 183 to 191): custom
creators of the target when present, else the delegating runner hooks. -/
def targetHooksOf (targetConfig : AgentConfig)
    (defaultCreateSuccessResult defaultCreateErrorResult :
      String → List ChatMessage → TermReason → AgentResult) : RunnerHooks :=
  { prepareInitialMessages := none,
    createSuccessResult := targetConfig.createSuccessResultC.getD defaultCreateSuccessResult,
    createErrorResult := targetConfig.createErrorResultC.getD defaultCreateErrorResult }

/-- `AgentRunner.executeHandoff` (lines 110 to 234), parameterized by the
recursive runner `runF` for the target agent. `executingAgent` is received
but, as in the source, used only for logging. -/
def executeHandoffWith
    (runF : List ChatMessage → JValue → RunnerConfig → RunnerHooks → Option AgentConfig → AgentResult)
    (reg : Registry)
    (currentMessages : List ChatMessage)
    (originalArgs : JValue)
    (handoffConfig : HandoffConfig)
    (executingAgent : Option AgentConfig)
    (defaultModelName : String)
    (defaultMaxIterations : Nat)
    (defaultTemperature : Int)
    (defaultCreateSuccessResult defaultCreateErrorResult :
      String → List ChatMessage → TermReason → AgentResult)
    (llmToolArgs : Option JValue) : AgentResult :=
  match reg handoffConfig.targetAgentName with
  | none =>
    defaultCreateErrorResult
      ("Handoff target " ++ handoffConfig.targetAgentName ++
        " not found or is not a ConfigurableAgentTool.")
      currentMessages .error
  | some t =>
    match t.agentCfg with
    | none =>
      defaultCreateErrorResult
        ("Handoff target " ++ handoffConfig.targetAgentName ++
          " not found or is not a ConfigurableAgentTool.")
        currentMessages .error
    | some targetConfig =>
      let handoffMessages := handoffMessagesOf handoffConfig currentMessages
      let targetRunnerConfig : RunnerConfig :=
        targetRunnerConfigOf reg targetConfig defaultModelName defaultMaxIterations
          defaultTemperature
      let targetHooks : RunnerHooks :=
        targetHooksOf targetConfig defaultCreateSuccessResult defaultCreateErrorResult
      let targetAgentArgs := llmToolArgs.getD originalArgs
      let handoffResult :=
        runF handoffMessages targetAgentArgs targetRunnerConfig targetHooks (some targetConfig)
      if targetConfig.includeIntermediateStepsOnReturn == some true then
        { handoffResult with
          intermediateSteps :=
            some (currentMessages ++ handoffResult.intermediateSteps.getD []),
          terminationReason := some (handoffResult.terminationReason.getD .handed_off) }
      else
        { handoffResult with
          intermediateSteps := none,
          terminationReason := some (handoffResult.terminationReason.getD .handed_off) }

/-- `AgentRunner.run`, with an explicit handoff-chain fuel `depth` (the
source recurses without a cycle guard; the spec flags the missing guard as
an open question, so every theorem quantifies over sufficient fuel). At
fuel 0 a handoff cannot be performed; no claim exercises that artifact. -/
def runDepth : Nat → Registry → Gateway → List ChatMessage → JValue →
    RunnerConfig → RunnerHooks → Option AgentConfig → AgentResult
  | 0, _, _, initialMessages, _, _, hooks, _ =>
    hooks.createErrorResult "Handoff chain fuel exhausted"
      (prepMsgs hooks initialMessages) .error
  | d + 1, reg, gw, initialMessages, args, config, hooks, executingAgent =>
    let messages := prepMsgs hooks initialMessages
    let toolMap := buildToolMap reg config.tools executingAgent
    let hx := fun msgs a hc largs =>
      executeHandoffWith (runDepth d reg gw) reg msgs a hc executingAgent
        config.modelName config.maxIterations (config.temperature.getD 0)
        hooks.createSuccessResult hooks.createErrorResult largs
    loopF gw hooks executingAgent toolMap hx args config.maxIterations
      config.maxIterations 0 messages (freshIdBase messages)

/-- `AgentRunner.executeHandoff` with the recursive runner instantiated at
fuel `depth`. -/
def executeHandoff (depth : Nat) (reg : Registry) (gw : Gateway)
    (currentMessages : List ChatMessage) (originalArgs : JValue)
    (handoffConfig : HandoffConfig) (executingAgent : Option AgentConfig)
    (defaultModelName : String) (defaultMaxIterations : Nat) (defaultTemperature : Int)
    (defaultCreateSuccessResult defaultCreateErrorResult :
      String → List ChatMessage → TermReason → AgentResult)
    (llmToolArgs : Option JValue) : AgentResult :=
  executeHandoffWith (runDepth depth reg gw) reg currentMessages originalArgs
    handoffConfig executingAgent defaultModelName defaultMaxIterations
    defaultTemperature defaultCreateSuccessResult defaultCreateErrorResult llmToolArgs

/-- The recursive run a handoff performs for its target agent, as a named
value so that theorems can speak about the target history. -/
def targetRunOf (depth : Nat) (reg : Registry) (gw : Gateway)
    (currentMessages : List ChatMessage) (originalArgs : JValue)
    (handoffConfig : HandoffConfig) (targetConfig : AgentConfig)
    (defaultModelName : String) (defaultMaxIterations : Nat) (defaultTemperature : Int)
    (defaultCreateSuccessResult defaultCreateErrorResult :
      String → List ChatMessage → TermReason → AgentResult)
    (llmToolArgs : Option JValue) : AgentResult :=
  runDepth depth reg gw (handoffMessagesOf handoffConfig currentMessages)
    (llmToolArgs.getD originalArgs)
    (targetRunnerConfigOf reg targetConfig defaultModelName defaultMaxIterations
      defaultTemperature)
    (targetHooksOf targetConfig defaultCreateSuccessResult defaultCreateErrorResult)
    (some targetConfig)

/-! ## UnifiedLLMClient.parseResponse -/

/-- The structured function call of a unified response. -/
structure FunctionCallU where
  name : String
  arguments : JValue

/-- The part of `UnifiedLLMResponse` that `parseResponse` consumes. -/
structure UnifiedLLMResponse where
  text : Option String := none
  functionCall : Option FunctionCallU := none

/-- The exact 14-character tool-call envelope marker searched for in the
raw text. -/
def jsonToolMarker : String := "\"action\":\"tool\""

/-- The guard deciding whether raw text is treated as a JSON tool-call
envelope: trimmed text starts with a brace and contains the exact marker. -/
def envelopeGuard (s : String) : Bool :=
  strStartsWith (strTrim s) "\x7b" && strContains s jsonToolMarker

/-- `UnifiedLLMClient.parseResponse` (lines 404 to 442), parameterized by
the JavaScript `JSON.parse` (an external builtin: `none` is a thrown parse
failure). A non-string `toolName` would flow through coerced, hence the
`jsToString`. -/
def parseResponse (jsonParse : String → Option JValue)
    (response : UnifiedLLMResponse) : ParsedLLMAction :=
  match response.functionCall with
  | some fc => .tool_call fc.name fc.arguments
  | none =>
    match response.text with
    | some rawContent =>
      if rawContent != "" then
        if envelopeGuard rawContent then
          match jsonParse rawContent with
          | some contentJson =>
            if (match jAccess contentJson "action" with
                | some (.jstr a) => a == "tool"
                | _ => false) && truthyO (jAccess contentJson "toolName") then
              .tool_call (jsToString ((jAccess contentJson "toolName").getD .jnull))
                (jsOrJ (jAccess contentJson "toolArgs") (.jobj []))
            else .final_answer rawContent
          | none => .final_answer rawContent
        else .final_answer rawContent
      else .error "No valid response from LLM"
    | none => .error "No valid response from LLM"

/-! ## The sanitizer of src/test_sanitization.js -/

/-- `sanitizeToolResultForText` from src/test_sanitization.js: non-objects
pass through; an object loses its `imageData` field. (The degenerate array
spread of JavaScript is not modelled; no array carries `imageData`.) -/
def sanitizeToolResultForText : JValue → JValue
  | .jobj fs => .jobj (fs.filter (fun p => p.1 != "imageData"))
  | v => v

/-! ## Log-shape predicates for the pairing claims -/

/-- Is the message a `Model.*` message? -/
def isModelMsg : ChatMessage → Bool
  | .modelTool _ _ _ _ => true
  | .modelFinal _ _ => true
  | _ => false

/-- Is the message a `ToolResult` carrying the given toolCallId? -/
def trHasId (i : Nat) : ChatMessage → Bool
  | .toolResult _ _ _ (some j) _ => j == i
  | _ => false

/-- The forward half of the claimed invariant: every `Model.Tool` is
followed, before the next `Model.*` message, by exactly one `ToolResult`
with the same toolCallId. -/
def pairsExactOk : List ChatMessage → Bool
  | [] => true
  | .modelTool _ _ i _ :: rest =>
    ((rest.takeWhile (fun m => !isModelMsg m)).countP (trHasId i) == 1) && pairsExactOk rest
  | _ :: rest => pairsExactOk rest

/-- Does some already-seen message call a tool with this id? -/
def hasPrecedingMT (i : Nat) (seen : List ChatMessage) : Bool :=
  seen.any (fun m => match m with
                     | .modelTool _ _ j _ => j == i
                     | _ => false)

/-- The converse half of the claimed invariant: no `ToolResult` without a
preceding `Model.Tool` sharing its toolCallId (a `ToolResult` with no id at
all shares an id with nothing). -/
def conversePairsOkAux (seen : List ChatMessage) : List ChatMessage → Bool
  | [] => true
  | m :: rest =>
    (match m with
     | .toolResult _ _ _ (some i) _ => hasPrecedingMT i seen
     | .toolResult _ _ _ none _ => false
     | _ => true) && conversePairsOkAux (m :: seen) rest

/-- The full pairing invariant exactly as claim C1 states it. -/
def claimC1Ok (log : List ChatMessage) : Bool :=
  pairsExactOk log && conversePairsOkAux [] log

/-- The id a message carries when it is a `ToolResult` with a toolCallId. -/
def trWithId? : ChatMessage → Option Nat
  | .toolResult _ _ _ (some i) _ => some i
  | _ => none

/-- Is the message a `Model.Tool` message? -/
def isMT : ChatMessage → Bool
  | .modelTool _ _ _ _ => true
  | _ => false

/-- One link of the amended pairing invariant: an id-carrying `ToolResult`
immediately follows the `Model.Tool` with that id, and whatever immediately
follows a `Model.Tool` is a `ToolResult` carrying its id or no id. -/
def stepOk (prev : Option ChatMessage) (m : ChatMessage) : Bool :=
  (match trWithId? m with
   | some i =>
     (match prev with
      | some (.modelTool _ _ j _) => j == i
      | _ => false)
   | none => true)
  && (match prev with
      | some (.modelTool _ _ j _) =>
        (match m with
         | .toolResult _ _ _ tid _ => tid == some j || tid == none
         | _ => false)
      | _ => true)

/-- All consecutive links hold, starting after `prev`. -/
def chainSeg (prev : Option ChatMessage) : List ChatMessage → Bool
  | [] => true
  | m :: rest => stepOk prev m && chainSeg (some m) rest

/-- The last message of `l`, or `prev` when `l` is empty. -/
def lastO (prev : Option ChatMessage) : List ChatMessage → Option ChatMessage
  | [] => prev
  | m :: rest => lastO (some m) rest

/-- No pending `Model.Tool` at this point. -/
def notMT (o : Option ChatMessage) : Bool :=
  match o with
  | some m => !isMT m
  | none => true

/-- The toolCallIds carried by `ToolResult` messages of the log. -/
def trIds (l : List ChatMessage) : List Nat :=
  l.filterMap trWithId?

/-- The amended pairing invariant: every id-carrying `ToolResult`
immediately follows the `Model.Tool` with its id, a `Model.Tool` is always
immediately followed by a `ToolResult` (with its id when the tool executed,
with no id when the loop failed) and never ends the log, and no toolCallId
is used by two `ToolResult` messages. -/
def AmendedOk (l : List ChatMessage) : Prop :=
  chainSeg none l = true ∧ notMT (lastO none l) = true ∧ (trIds l).Nodup

/-! ## Accessors used by concrete statements -/

/-- `resultText` of the i-th log message when it is a `ToolResult`. -/
def resultTextAt (l : List ChatMessage) (i : Nat) : String :=
  match l[i]? with
  | some (.toolResult _ t _ _ _) => t
  | _ => ""

/-- `resultData` of the i-th log message when it is a `ToolResult`. -/
def resultDataAt (l : List ChatMessage) (i : Nat) : Option JValue :=
  match l[i]? with
  | some (.toolResult _ _ _ _ d) => d
  | _ => none

/-- The repeated (`Model.Tool`, `ToolResult`) block a run appends when every
model reply calls the same ordinary tool: one block per iteration, with
consecutive fresh ids starting at `nid`. -/
def toolBlocks (tname : String) (targs : JValue) (rs : Option String) (v : JValue) :
    Nat → Nat → List ChatMessage
  | 0, _ => []
  | r + 1, nid =>
    .modelTool tname targs nid rs ::
    .toolResult tname (toolOutcomeOf v).2 (toolOutcomeOf v).1 (some nid)
      (if truthy v then some v else none) ::
    toolBlocks tname targs rs v r (nid + 1)

/-! ## Concrete scenarios for counterexamples and witnesses -/

/-- C1 scenario: agent A hands off to agent B via an LLM `handoff_to_B`
tool call; B answers immediately and is configured to return intermediate
steps. -/
def gwC1 : Gateway := fun name _ =>
  if name == "A" then .ok { action := .tool_call "handoff_to_B" (.jobj []) }
  else .ok { action := .final_answer "done" }

def bCfgC1 : AgentConfig :=
  { name := "B", systemPrompt := "sp", tools := [],
    includeIntermediateStepsOnReturn := some true }

def aCfgC1 : AgentConfig :=
  { name := "A", systemPrompt := "sp", tools := [],
    handoffs := some [{ targetAgentName := "B" }] }

def regC1 : Registry := fun n =>
  if n == "B" then some { name := "B", agentCfg := some bCfgC1, exec := fun _ => .ok .jnull }
  else none

def exC1run : AgentResult :=
  runDepth 2 regC1 gwC1 [.user "hi"] (.jobj []) { maxIterations := 3 } defaultHooks (some aCfgC1)

/-- C2 scenario: an error result of the allowed tool `search`. -/
def exC2mt : ChatMessage := .modelTool "search" (.jobj []) 0 none

def exC2tr : ChatMessage := .toolResult "search" "boom" true (some 0) none

def exC2hc : HandoffConfig := { targetAgentName := "B", includeToolResults := some ["search"] }

/-- C4 scenario: a tool whose result carries a large image payload. -/
def perfC4 : JValue := .jobj [("imageData", .jstr "BASE64DATA"), ("xpath", .jstr "//b")]

def gwC4 : Gateway := fun _ i =>
  if i == 0 then .ok { action := .tool_call "act" (.jobj []) }
  else .ok { action := .final_answer "done" }

def exC4run : AgentResult :=
  runDepth 1 (fun _ => none) gwC4 [.user "click"] (.jobj [])
    { tools := [{ name := "act", exec := fun _ => .ok perfC4 }], maxIterations := 2 }
    defaultHooks none

/-- C5 scenario: two handoff targets differing only in
`includeIntermediateStepsOnReturn`. -/
def bFalseC5 : AgentConfig := { name := "Bf", systemPrompt := "sp", tools := [] }

def bTrueC5 : AgentConfig :=
  { name := "Bt", systemPrompt := "sp", tools := [],
    includeIntermediateStepsOnReturn := some true }

def regC5 : Registry := fun n =>
  if n == "Bf" then some { name := "Bf", agentCfg := some bFalseC5, exec := fun _ => .ok .jnull }
  else if n == "Bt" then some { name := "Bt", agentCfg := some bTrueC5, exec := fun _ => .ok .jnull }
  else none

def gwC5 : Gateway := fun _ _ => .ok { action := .final_answer "ok" }

def exC5f : AgentResult :=
  executeHandoff 1 regC5 gwC5 [.user "hi"] (.jobj []) { targetAgentName := "Bf" } none
    "m" 3 0 defaultHooks.createSuccessResult defaultHooks.createErrorResult none

def exC5t : AgentResult :=
  executeHandoff 1 regC5 gwC5 [.user "hi"] (.jobj []) { targetAgentName := "Bt" } none
    "m" 3 0 defaultHooks.createSuccessResult defaultHooks.createErrorResult none

/-- C7 scenario: agent A declares a handoff to an unregistered target, and
the model simply answers. -/
def aCfgC7 : AgentConfig :=
  { name := "A", systemPrompt := "sp", tools := [],
    handoffs := some [{ targetAgentName := "Missing" }] }

def gwC7 : Gateway := fun _ _ => .ok { action := .final_answer "46" }

def exC7run : AgentResult :=
  runDepth 1 (fun _ => none) gwC7 [.user "q"] (.jobj []) { maxIterations := 1 }
    defaultHooks (some aCfgC7)

/-- C6 and C9 scenario: a no-handoff agent whose model always calls the
tool `t`, which always returns a failure value. -/
def failObjC6 : JValue := .jobj [("error", .jstr "x")]

def ttC6 : RegTool := { name := "t", exec := fun _ => .ok failObjC6 }

def gwC6 : Gateway := fun _ _ => .ok { action := .tool_call "t" (.jobj []) }

def cfgC6 : RunnerConfig := { tools := [ttC6], maxIterations := 3 }

/-- C8 scenario: a gateway that always raises a transport failure. -/
def gwC8x : Gateway := fun _ _ => .error "boom"

/-! ## Helper lemmas -/

theorem stepsOf_defaultError (e : String) (s : List ChatMessage) (r : TermReason) :
    stepsOf (defaultHooks.createErrorResult e s r) = s := rfl

theorem stepsOf_defaultSuccess (o : String) (s : List ChatMessage) (r : TermReason) :
    stepsOf (defaultHooks.createSuccessResult o s r) = s := rfl

theorem lastO_append (p : Option ChatMessage) (xs ys : List ChatMessage) :
    lastO p (xs ++ ys) = lastO (lastO p xs) ys := by
  induction xs generalizing p with
  | nil => rfl
  | cons m rest ih => simp only [List.cons_append, lastO]; exact ih (some m)

theorem chainSeg_append (p : Option ChatMessage) (xs ys : List ChatMessage) :
    chainSeg p (xs ++ ys) = (chainSeg p xs && chainSeg (lastO p xs) ys) := by
  induction xs generalizing p with
  | nil => rfl
  | cons m rest ih =>
    simp only [List.cons_append, chainSeg, lastO, List.append_eq, ih (some m), Bool.and_assoc]

theorem trIds_append (xs ys : List ChatMessage) :
    trIds (xs ++ ys) = trIds xs ++ trIds ys := by
  simp [trIds]

theorem stepOk_safe (p : Option ChatMessage) (m : ChatMessage)
    (hp : notMT p = true) (hm : trWithId? m = none) : stepOk p m = true := by
  unfold stepOk
  rw [hm]
  cases p with
  | none => rfl
  | some q =>
    cases q with
    | modelTool tn ta j rs => simp [notMT, isMT] at hp
    | user t => rfl
    | modelFinal a rs => rfl
    | toolResult tn t e i d => rfl

theorem stepOk_mt_tr (tn ta : String) (a : JValue) (i : Nat) (rs : Option String)
    (txt : String) (err : Bool) (rd : Option JValue) :
    stepOk (some (.modelTool tn a i rs)) (.toolResult ta txt err (some i) rd) = true := by
  simp [stepOk, trWithId?]

theorem stepOk_mt_trnone (tn ta : String) (a : JValue) (i : Nat) (rs : Option String)
    (txt : String) (err : Bool) (rd : Option JValue) :
    stepOk (some (.modelTool tn a i rs)) (.toolResult ta txt err none rd) = true := by
  simp [stepOk, trWithId?]

theorem trWithId_bound (m : ChatMessage) (j : Nat) (h : trWithId? m = some j) :
    j < msgIdBound m := by
  cases m with
  | toolResult tn t e i d =>
    cases i with
    | none => simp [trWithId?] at h
    | some k => simp [trWithId?] at h; simp [msgIdBound]; omega
  | user t => simp [trWithId?] at h
  | modelTool tn ta i rs => simp [trWithId?] at h
  | modelFinal a rs => simp [trWithId?] at h

theorem trIds_lt_freshIdBase (msgs : List ChatMessage) :
    ∀ i ∈ trIds msgs, i < freshIdBase msgs := by
  induction msgs with
  | nil => intro i hi; simp [trIds] at hi
  | cons m rest ih =>
    intro i hi
    have hfb : freshIdBase (m :: rest) = max (msgIdBound m) (freshIdBase rest) := rfl
    rw [hfb]
    rcases hm : trWithId? m with _ | j
    · have : trIds (m :: rest) = trIds rest := by simp [trIds, List.filterMap_cons, hm]
      rw [this] at hi
      have := ih i hi
      omega
    · have : trIds (m :: rest) = j :: trIds rest := by simp [trIds, List.filterMap_cons, hm]
      rw [this] at hi
      rcases List.mem_cons.mp hi with hij | hir
      · subst hij
        have := trWithId_bound m i hm
        omega
      · have := ih i hir
        omega

theorem nodup_snoc_fresh (xs : List Nat) (n : Nat) (h : xs.Nodup)
    (hb : ∀ i ∈ xs, i < n) : (xs ++ [n]).Nodup := by
  rw [List.nodup_append]
  refine ⟨h, List.nodup_singleton n, ?_⟩
  intro a ha hmem
  have := hb a ha
  simp only [List.mem_singleton] at hmem
  omega

theorem amended_snoc (msgs : List ChatMessage) (m : ChatMessage)
    (h1 : chainSeg none msgs = true) (h2 : notMT (lastO none msgs) = true)
    (h3 : (trIds msgs).Nodup)
    (hm : trWithId? m = none) (hmt : isMT m = false) : AmendedOk (msgs ++ [m]) := by
  refine ⟨?_, ?_, ?_⟩
  · rw [chainSeg_append, h1]
    simp only [chainSeg, Bool.and_true, Bool.true_and]
    exact stepOk_safe _ _ h2 hm
  · rw [lastO_append]
    simp [lastO, notMT, hmt]
  · rw [trIds_append]
    have : trIds [m] = [] := by simp [trIds, List.filterMap, hm]
    rw [this, List.append_nil]
    exact h3

theorem amended_mt_trnone (msgs : List ChatMessage) (tname ta : String) (targs : JValue)
    (nid : Nat) (rs : Option String) (txt : String) (b : Bool) (rd : Option JValue)
    (h1 : chainSeg none msgs = true) (h2 : notMT (lastO none msgs) = true)
    (h3 : (trIds msgs).Nodup) :
    AmendedOk (msgs ++ [ChatMessage.modelTool tname targs nid rs] ++
      [ChatMessage.toolResult ta txt b none rd]) := by
  rw [List.append_assoc]
  refine ⟨?_, ?_, ?_⟩
  · rw [chainSeg_append, h1]
    simp only [List.cons_append, List.nil_append, chainSeg, Bool.and_true, Bool.true_and]
    rw [Bool.and_eq_true]
    exact ⟨stepOk_safe _ _ h2 rfl, stepOk_mt_trnone _ _ _ _ _ _ _ _⟩
  · rw [lastO_append]
    rfl
  · rw [trIds_append]
    have : trIds ([ChatMessage.modelTool tname targs nid rs] ++
        [ChatMessage.toolResult ta txt b none rd]) = [] := by
      simp [trIds, List.filterMap, trWithId?]
    rw [this, List.append_nil]
    exact h3

theorem inv_mt_tr (msgs : List ChatMessage) (tname ta : String) (targs : JValue)
    (nid : Nat) (rs : Option String) (txt : String) (b : Bool) (rd : Option JValue)
    (h1 : chainSeg none msgs = true) (h2 : notMT (lastO none msgs) = true)
    (h3 : (trIds msgs).Nodup) (h4 : ∀ i ∈ trIds msgs, i < nid) :
    chainSeg none (msgs ++ [ChatMessage.modelTool tname targs nid rs] ++
      [ChatMessage.toolResult ta txt b (some nid) rd]) = true
    ∧ notMT (lastO none (msgs ++ [ChatMessage.modelTool tname targs nid rs] ++
        [ChatMessage.toolResult ta txt b (some nid) rd])) = true
    ∧ (trIds (msgs ++ [ChatMessage.modelTool tname targs nid rs] ++
        [ChatMessage.toolResult ta txt b (some nid) rd])).Nodup
    ∧ (∀ i ∈ trIds (msgs ++ [ChatMessage.modelTool tname targs nid rs] ++
        [ChatMessage.toolResult ta txt b (some nid) rd]), i < nid + 1) := by
  have hids : trIds (msgs ++ [ChatMessage.modelTool tname targs nid rs] ++
      [ChatMessage.toolResult ta txt b (some nid) rd]) = trIds msgs ++ [nid] := by
    rw [List.append_assoc, trIds_append]
    simp [trIds, List.filterMap, trWithId?]
  refine ⟨?_, ?_, ?_, ?_⟩
  · rw [List.append_assoc, chainSeg_append, h1]
    simp only [List.cons_append, List.nil_append, chainSeg, Bool.and_true, Bool.true_and]
    rw [Bool.and_eq_true]
    exact ⟨stepOk_safe _ _ h2 rfl, stepOk_mt_tr _ _ _ _ _ _ _ _⟩
  · rw [List.append_assoc, lastO_append]
    rfl
  · rw [hids]
    exact nodup_snoc_fresh _ _ h3 h4
  · rw [hids]
    intro i hi
    rcases List.mem_append.mp hi with h | h
    · have := h4 i h; omega
    · simp only [List.mem_singleton] at h; omega

/-- The amended pairing invariant is preserved by the whole iteration loop
of a run without an executing-agent configuration (hence without reachable
handoffs), whatever the gateway, tool map and tool behaviours do. -/
theorem loopF_amendedOk (gw : Gateway) (toolMap : List (String × RegTool))
    (hx : List ChatMessage → JValue → HandoffConfig → Option JValue → AgentResult)
    (args : JValue) (maxIter : Nat) :
    ∀ (remaining iteration nextId : Nat) (messages : List ChatMessage),
      chainSeg none messages = true →
      notMT (lastO none messages) = true →
      (trIds messages).Nodup →
      (∀ i ∈ trIds messages, i < nextId) →
      AmendedOk (stepsOf (loopF gw defaultHooks none toolMap hx args maxIter
        remaining iteration messages nextId)) := by
  intro remaining
  induction remaining with
  | zero =>
    intro it nid msgs h1 h2 h3 h4
    simp only [loopF, handoffAtMax, stepsOf_defaultError]
    exact ⟨h1, h2, h3⟩
  | succ r ih =>
    intro it nid msgs h1 h2 h3 h4
    rcases hgw : gw "Unknown" it with e | step
    · simp only [loopF, Option.map_none', Option.getD_none, hgw, stepsOf_defaultError]
      exact amended_snoc _ _ h1 h2 h3 rfl rfl
    · obtain ⟨act, rs⟩ := step
      cases act with
      | final_answer ans =>
        simp only [loopF, Option.map_none', Option.getD_none, hgw, stepsOf_defaultSuccess]
        exact amended_snoc _ _ h1 h2 h3 rfl rfl
      | error e =>
        simp only [loopF, Option.map_none', Option.getD_none, hgw, loopError,
          stepsOf_defaultError]
        exact amended_snoc _ _ h1 h2 h3 rfl rfl
      | tool_call tname targs =>
        rcases hlk : lookupTool toolMap tname with _ | tt
        · simp only [loopF, Option.map_none', Option.getD_none, hgw, hlk, loopError,
            stepsOf_defaultError]
          exact amended_mt_trnone _ _ _ _ _ _ _ _ _ h1 h2 h3
        · rcases hhb : (strStartsWith tname "handoff_to_" && tt.agentCfg.isSome) with _ | _
          · rcases hex : tt.exec targs with err | v
            · simp only [loopF, Option.map_none', Option.getD_none, hgw, hlk, hhb,
                Bool.false_eq_true, if_false, hex]
              have inv := inv_mt_tr msgs tname tname targs nid rs
                ("Error during tool execution: " ++ err) true
                (some (JValue.jobj
                  [("error", JValue.jstr ("Error during tool execution: " ++ err))]))
                h1 h2 h3 h4
              exact ih (it + 1) (nid + 1) _ inv.1 inv.2.1 inv.2.2.1 inv.2.2.2
            · simp only [loopF, Option.map_none', Option.getD_none, hgw, hlk, hhb,
                Bool.false_eq_true, if_false, hex]
              have inv := inv_mt_tr msgs tname tname targs nid rs
                (toolOutcomeOf v).2 (toolOutcomeOf v).1
                (if truthy v then some v else none)
                h1 h2 h3 h4
              exact ih (it + 1) (nid + 1) _ inv.1 inv.2.1 inv.2.2.1 inv.2.2.2
          · simp only [loopF, Option.map_none', Option.getD_none, hgw, hlk, hhb, if_true,
              findLLMHandoff, loopError, stepsOf_defaultError]
            exact amended_mt_trnone _ _ _ _ _ _ _ _ _ h1 h2 h3

/-- Budget exhaustion without a `max_iterations` rule ends the loop with the
maximum-iterations error result. -/
theorem loopF_budget (gw : Gateway) (hooks : RunnerHooks) (ea : Option AgentConfig)
    (toolMap : List (String × RegTool))
    (hx : List ChatMessage → JValue → HandoffConfig → Option JValue → AgentResult)
    (args : JValue) (maxIter : Nat) (hno : handoffAtMax ea = none)
    (it : Nat) (msgs : List ChatMessage) (nid : Nat) :
    loopF gw hooks ea toolMap hx args maxIter 0 it msgs nid
      = hooks.createErrorResult
          ("Agent reached maximum iterations (" ++ toString maxIter ++ ")")
          msgs .max_iterations := by
  simp [loopF, hno]

/-- Budget exhaustion with a `max_iterations` rule performs the handoff. -/
theorem loopF_budget_handoff (gw : Gateway) (hooks : RunnerHooks) (ea : Option AgentConfig)
    (toolMap : List (String × RegTool))
    (hx : List ChatMessage → JValue → HandoffConfig → Option JValue → AgentResult)
    (args : JValue) (maxIter : Nat) (hc : HandoffConfig) (hyes : handoffAtMax ea = some hc)
    (it : Nat) (msgs : List ChatMessage) (nid : Nat) :
    loopF gw hooks ea toolMap hx args maxIter 0 it msgs nid = hx msgs args hc none := by
  simp [loopF, hyes]

theorem toolBlocks_length (tname : String) (targs : JValue) (rs : Option String) (v : JValue) :
    ∀ (r nid : Nat), (toolBlocks tname targs rs v r nid).length = 2 * r := by
  intro r
  induction r with
  | zero => intro nid; rfl
  | succ r ih =>
    intro nid
    simp only [toolBlocks, List.length_cons, ih]
    omega

/-- One iteration executing an ordinary tool that returns a value appends
the `Model.Tool` and its classified `ToolResult` and continues. -/
theorem loopF_step_ok (gw : Gateway) (hooks : RunnerHooks) (ea : Option AgentConfig)
    (toolMap : List (String × RegTool))
    (hx : List ChatMessage → JValue → HandoffConfig → Option JValue → AgentResult)
    (args : JValue) (maxIter : Nat)
    (tname : String) (targs : JValue) (rs : Option String) (tt : RegTool) (v : JValue)
    (r it : Nat) (msgs : List ChatMessage) (nid : Nat)
    (hgw : gw ((ea.map AgentConfig.name).getD "Unknown") it = .ok ⟨.tool_call tname targs, rs⟩)
    (hlk : lookupTool toolMap tname = some tt)
    (hhb : (strStartsWith tname "handoff_to_" && tt.agentCfg.isSome) = false)
    (hex : tt.exec targs = .ok v) :
    loopF gw hooks ea toolMap hx args maxIter (r + 1) it msgs nid
      = loopF gw hooks ea toolMap hx args maxIter r (it + 1)
          (msgs ++ [.modelTool tname targs nid rs,
            .toolResult tname (toolOutcomeOf v).2 (toolOutcomeOf v).1 (some nid)
              (if truthy v then some v else none)]) (nid + 1) := by
  simp only [loopF, hgw, hlk, hhb, Bool.false_eq_true, if_false, hex, List.append_assoc,
    List.cons_append, List.nil_append]

/-- One iteration whose ordinary tool throws appends the `Model.Tool` and an
error `ToolResult` and continues. -/
theorem loopF_step_throw (gw : Gateway) (hooks : RunnerHooks) (ea : Option AgentConfig)
    (toolMap : List (String × RegTool))
    (hx : List ChatMessage → JValue → HandoffConfig → Option JValue → AgentResult)
    (args : JValue) (maxIter : Nat)
    (tname : String) (targs : JValue) (rs : Option String) (tt : RegTool) (err : String)
    (r it : Nat) (msgs : List ChatMessage) (nid : Nat)
    (hgw : gw ((ea.map AgentConfig.name).getD "Unknown") it = .ok ⟨.tool_call tname targs, rs⟩)
    (hlk : lookupTool toolMap tname = some tt)
    (hhb : (strStartsWith tname "handoff_to_" && tt.agentCfg.isSome) = false)
    (hex : tt.exec targs = .error err) :
    loopF gw hooks ea toolMap hx args maxIter (r + 1) it msgs nid
      = loopF gw hooks ea toolMap hx args maxIter r (it + 1)
          (msgs ++ [.modelTool tname targs nid rs,
            .toolResult tname ("Error during tool execution: " ++ err) true (some nid)
              (some (.jobj [("error", .jstr ("Error during tool execution: " ++ err))]))])
          (nid + 1) := by
  simp only [loopF, hgw, hlk, hhb, Bool.false_eq_true, if_false, hex, List.append_assoc,
    List.cons_append, List.nil_append]

/-- When every model reply calls the same ordinary tool, the loop runs its
whole budget down, appending one block per iteration. -/
theorem loopF_descend (gw : Gateway) (hooks : RunnerHooks) (ea : Option AgentConfig)
    (toolMap : List (String × RegTool))
    (hx : List ChatMessage → JValue → HandoffConfig → Option JValue → AgentResult)
    (args : JValue) (maxIter : Nat)
    (tname : String) (targs : JValue) (rs : Option String) (tt : RegTool) (v : JValue)
    (hg : ∀ j, gw ((ea.map AgentConfig.name).getD "Unknown") j
      = .ok ⟨.tool_call tname targs, rs⟩)
    (hlk : lookupTool toolMap tname = some tt)
    (hhb : (strStartsWith tname "handoff_to_" && tt.agentCfg.isSome) = false)
    (hex : tt.exec targs = .ok v) :
    ∀ (r it : Nat) (msgs : List ChatMessage) (nid : Nat),
      loopF gw hooks ea toolMap hx args maxIter r it msgs nid
        = loopF gw hooks ea toolMap hx args maxIter 0 (it + r)
            (msgs ++ toolBlocks tname targs rs v r nid) (nid + r) := by
  intro r
  induction r with
  | zero =>
    intro it msgs nid
    simp [toolBlocks]
  | succ r ih =>
    intro it msgs nid
    rw [loopF_step_ok gw hooks ea toolMap hx args maxIter tname targs rs tt v r it msgs nid
      (hg it) hlk hhb hex]
    rw [ih (it + 1) _ (nid + 1)]
    have h1 : it + 1 + r = it + (r + 1) := by omega
    have h2 : nid + 1 + r = nid + (r + 1) := by omega
    rw [h1, h2]
    have h3 : msgs ++ [ChatMessage.modelTool tname targs nid rs,
        ChatMessage.toolResult tname (toolOutcomeOf v).2 (toolOutcomeOf v).1 (some nid)
          (if truthy v then some v else none)] ++ toolBlocks tname targs rs v r (nid + 1)
        = msgs ++ toolBlocks tname targs rs v (r + 1) nid := by
      simp [toolBlocks, List.append_assoc]
    rw [h3]

/-- Without an executing-agent configuration the loop consults the gateway
only at the iterations inside its budget and never invokes the handoff
executor: the outcome agrees for any two gateways that agree there and for
any two handoff executors. -/
theorem loopF_gw_congr (gw gw2 : Gateway) (hooks : RunnerHooks)
    (toolMap : List (String × RegTool))
    (hx hx2 : List ChatMessage → JValue → HandoffConfig → Option JValue → AgentResult)
    (args : JValue) (maxIter : Nat) :
    ∀ (r it : Nat) (msgs : List ChatMessage) (nid : Nat),
      (∀ j, it ≤ j → j < it + r → gw "Unknown" j = gw2 "Unknown" j) →
      loopF gw hooks none toolMap hx args maxIter r it msgs nid
        = loopF gw2 hooks none toolMap hx2 args maxIter r it msgs nid := by
  intro r
  induction r with
  | zero => intro it msgs nid h; rfl
  | succ r ih =>
    intro it msgs nid h
    have hsame : gw "Unknown" it = gw2 "Unknown" it := h it (Nat.le_refl it) (by omega)
    rcases hg : gw "Unknown" it with e | step
    · have hg2 : gw2 "Unknown" it = .error e := by rw [← hsame, hg]
      simp only [loopF, Option.map_none', Option.getD_none, hg, hg2]
    · have hg2 : gw2 "Unknown" it = .ok step := by rw [← hsame, hg]
      obtain ⟨act, rs⟩ := step
      cases act with
      | final_answer ans => simp only [loopF, Option.map_none', Option.getD_none, hg, hg2]
      | error e => simp only [loopF, Option.map_none', Option.getD_none, hg, hg2]
      | tool_call tname targs =>
        simp only [loopF, Option.map_none', Option.getD_none, hg, hg2]
        rcases hlk : lookupTool toolMap tname with _ | tt
        · simp only [hlk]
        · simp only [hlk]
          rcases hhb : (strStartsWith tname "handoff_to_" && tt.agentCfg.isSome) with _ | _
          · simp only [hhb, Bool.false_eq_true, if_false]
            rcases hex : tt.exec targs with err | v
            · simp only [hex]
              exact ih (it + 1) _ (nid + 1) (fun j h1 h2 => h j (by omega) (by omega))
            · simp only [hex]
              exact ih (it + 1) _ (nid + 1) (fun j h1 h2 => h j (by omega) (by omega))
          · simp only [hhb, if_true, findLLMHandoff]

/-! ## Claim theorems -/

/-- C1, counterexample. The claimed invariant fails on a terminal run: agent
A hands off to B via a synthesized `handoff_to_B` tool call, B answers, and
the final message log of the successful run contains `Model.Tool`
messages for `handoff_to_B` that are followed by no `ToolResult` with their
toolCallId before the next Model message, so the claimed exactly-one
pairing predicate evaluates to false on it. -/
theorem C1_counterexample :
    exC1run.terminationReason = some .final_answer
    ∧ exC1run.success = true
    ∧ claimC1Ok (stepsOf exC1run) = false := ⟨by decide, by decide, by decide⟩

/-- C1, amended. In every terminal run of an agent that performs no handoff
(no executing-agent configuration, hence no reachable handoff branch), the
exposed message log satisfies the amended pairing invariant: every
`ToolResult` that carries a toolCallId immediately follows the `Model.Tool`
with that id, no toolCallId is carried by two `ToolResult` messages, a
`Model.Tool` message never ends the log and is always immediately followed
by a `ToolResult` (sharing its id when the tool executed, id-less when the
loop failed), and gateway-failure and loop-error `ToolResult` messages
carry no toolCallId. Synthesized `handoff_to_X` tool calls, by contrast,
receive no `ToolResult` at all, as the counterexample shows. -/
theorem C1_theorem (d : Nat) (reg : Registry) (gw : Gateway) (config : RunnerConfig)
    (args : JValue) (init : List ChatMessage) (h : AmendedOk init) :
    AmendedOk (stepsOf (runDepth (d + 1) reg gw init args config defaultHooks none)) := by
  obtain ⟨h1, h2, h3⟩ := h
  simp only [runDepth]
  have hp : prepMsgs defaultHooks init = init := rfl
  rw [hp]
  exact loopF_amendedOk gw _ _ args config.maxIterations config.maxIterations 0
    (freshIdBase init) init h1 h2 h3 (trIds_lt_freshIdBase init)

/-- C1, witness: the amended invariant instantiated on a concrete run. -/
theorem C1_witness :
    AmendedOk [ChatMessage.user "hi"]
    ∧ AmendedOk (stepsOf (runDepth 1 regC1 gwC1 [.user "hi"] (.jobj [])
        { maxIterations := 3 } defaultHooks none)) := by
  have hinit : AmendedOk [ChatMessage.user "hi"] := by
    refine ⟨?_, ?_, ?_⟩ <;> decide
  exact ⟨hinit, C1_theorem 0 regC1 gwC1 { maxIterations := 3 } (.jobj [])
    [.user "hi"] hinit⟩

/-- C2, counterexample. With `includeToolResults = ["search"]` the handoff
filter does not keep the `Model.Tool`/`ToolResult` pair of the allowed tool
`search` when the result is an error: the `Model.Tool` is kept but the
error `ToolResult` is dropped, refuting that a pair is kept exactly when
the set contains its tool name. -/
theorem C2_counterexample :
    handoffMessagesOf exC2hc [exC2mt, exC2tr] = [exC2mt]
    ∧ (["search"].contains "search") = true
    ∧ exC2tr ∉ handoffMessagesOf exC2hc [exC2mt, exC2tr] := by
  refine ⟨rfl, by decide, ?_⟩
  have h : handoffMessagesOf exC2hc [exC2mt, exC2tr] = [exC2mt] := rfl
  rw [h]
  simp [exC2mt, exC2tr]

/-- C2, amended. For a present non-empty `includeToolResults` set the
handoff filter keeps every `User` and `Model.Final` message; a transferred
`Model.Tool` always has its tool name in the set, and a transferred
`ToolResult` is additionally never an error result; conversely every
`Model.Tool` with a non-empty listed name and every non-error `ToolResult`
with a non-empty listed name is transferred (so error results of allowed
tools are the only dropped pair halves). When the set is unset the full
log is transferred. -/
theorem C2_theorem :
    (∀ (allowed : List String) (msgs : List ChatMessage) (hc : HandoffConfig),
       hc.includeToolResults = some allowed → allowed ≠ [] →
       ((∀ t, ChatMessage.user t ∈ msgs → ChatMessage.user t ∈ handoffMessagesOf hc msgs)
        ∧ (∀ a rs, ChatMessage.modelFinal a rs ∈ msgs →
             ChatMessage.modelFinal a rs ∈ handoffMessagesOf hc msgs)
        ∧ (∀ tn ta i rs, ChatMessage.modelTool tn ta i rs ∈ handoffMessagesOf hc msgs →
             allowed.contains tn = true)
        ∧ (∀ tn txt e i rd, ChatMessage.toolResult tn txt e i rd ∈ handoffMessagesOf hc msgs →
             e = false ∧ allowed.contains tn = true)
        ∧ (∀ tn ta i rs, ChatMessage.modelTool tn ta i rs ∈ msgs → tn ≠ "" →
             allowed.contains tn = true →
             ChatMessage.modelTool tn ta i rs ∈ handoffMessagesOf hc msgs)
        ∧ (∀ tn txt i rd, ChatMessage.toolResult tn txt false i rd ∈ msgs → tn ≠ "" →
             allowed.contains tn = true →
             ChatMessage.toolResult tn txt false i rd ∈ handoffMessagesOf hc msgs)))
    ∧ (∀ (msgs : List ChatMessage) (hc : HandoffConfig),
        hc.includeToolResults = none → handoffMessagesOf hc msgs = msgs) := by
  constructor
  · intro allowed msgs hc h hne
    have hlen : 0 < allowed.length := List.length_pos.mpr hne
    have hfo : handoffMessagesOf hc msgs = msgs.filter (keepForHandoff allowed) := by
      simp [handoffMessagesOf, h, hlen]
    rw [hfo]
    refine ⟨?_, ?_, ?_, ?_, ?_, ?_⟩
    · intro t hm
      exact List.mem_filter.mpr ⟨hm, rfl⟩
    · intro a rs hm
      exact List.mem_filter.mpr ⟨hm, rfl⟩
    · intro tn ta i rs hm
      have hk := (List.mem_filter.mp hm).2
      simp only [keepForHandoff] at hk
      rcases hB : (tn != "") with _ | _
      · rw [hB] at hk; simp at hk
      · rw [hB] at hk; simpa using hk
    · intro tn txt e i rd hm
      have hk := (List.mem_filter.mp hm).2
      simp only [keepForHandoff, Bool.and_eq_true, Bool.not_eq_true] at hk
      exact ⟨by simpa using hk.1, hk.2.2⟩
    · intro tn ta i rs hm hne2 hcon
      refine List.mem_filter.mpr ⟨hm, ?_⟩
      simp only [keepForHandoff]
      have : (tn != "") = true := bne_iff_ne.mpr hne2
      rw [this, if_pos rfl]
      exact hcon
    · intro tn txt i rd hm hne2 hcon
      refine List.mem_filter.mpr ⟨hm, ?_⟩
      simp only [keepForHandoff, Bool.not_false, Bool.true_and]
      rw [Bool.and_eq_true]
      exact ⟨bne_iff_ne.mpr hne2, hcon⟩
  · intro msgs hc h
    simp [handoffMessagesOf, h]

/-- C2, witness: the amended filter properties at concrete inputs. -/
theorem C2_witness :
    ChatMessage.user "u" ∈ handoffMessagesOf exC2hc [ChatMessage.user "u", exC2mt]
    ∧ handoffMessagesOf { targetAgentName := "B" } [exC2mt, exC2tr] = [exC2mt, exC2tr] := by
  constructor
  · exact (C2_theorem.1 ["search"] [ChatMessage.user "u", exC2mt] exC2hc rfl
      (by decide)).1 "u" (by simp)
  · exact C2_theorem.2 _ _ rfl

/-- C3, confirmed. Interpretation order of a gateway response: a structured
function call, when present, is the tool_call action; otherwise, for any
non-empty text (JavaScript truthiness of `response.text`), the parsed
action is always a tool_call or a final answer — never the error variant.
A text matching the envelope guard whose JSON parse succeeds with
`action: "tool"` and a truthy `toolName` becomes exactly that tool_call
(with `toolArgs || {}` as arguments); a guard-matching text whose parse
throws degrades to a final answer, as does any text failing the guard.
The theorem holds for every JSON parser behaviour `jp`. -/
theorem C3_theorem :
    ∀ (jp : String → Option JValue) (r : UnifiedLLMResponse),
      (∀ fc, r.functionCall = some fc → parseResponse jp r = .tool_call fc.name fc.arguments)
      ∧ (∀ s, r.functionCall = none → r.text = some s → s ≠ "" →
          (((∃ n a, parseResponse jp r = .tool_call n a)
            ∨ (∃ ans, parseResponse jp r = .final_answer ans))
           ∧ (∀ j, envelopeGuard s = true → jp s = some j →
               jAccess j "action" = some (.jstr "tool") →
               truthyO (jAccess j "toolName") = true →
               parseResponse jp r
                 = .tool_call (jsToString ((jAccess j "toolName").getD .jnull))
                     (jsOrJ (jAccess j "toolArgs") (.jobj [])))
           ∧ (envelopeGuard s = true → jp s = none → parseResponse jp r = .final_answer s)
           ∧ (envelopeGuard s = false → parseResponse jp r = .final_answer s))) := by
  intro jp r
  constructor
  · intro fc h
    simp [parseResponse, h]
  · intro s h0 h1 h2
    have hb : (s != "") = true := bne_iff_ne.mpr h2
    refine ⟨?_, ?_, ?_, ?_⟩
    · simp only [parseResponse, h0, h1, hb, if_true]
      rcases hg : envelopeGuard s with _ | _
      · simp only [hg, Bool.false_eq_true, if_false]
        exact Or.inr ⟨s, rfl⟩
      · simp only [hg, if_true]
        rcases hjp : jp s with _ | j
        · exact Or.inr ⟨s, rfl⟩
        · rcases hc : ((match jAccess j "action" with
            | some (.jstr a) => a == "tool"
            | _ => false) && truthyO (jAccess j "toolName")) with _ | _
          · simp only [hc, Bool.false_eq_true, if_false]
            exact Or.inr ⟨s, rfl⟩
          · simp only [hc, if_true]
            exact Or.inl ⟨_, _, rfl⟩
    · intro j hg hjp haction htool
      simp only [parseResponse, h0, h1, hb, if_true, hg, hjp, haction, htool,
        beq_self_eq_true, Bool.and_true, if_true]
    · intro hg hjp
      simp [parseResponse, h0, h1, hb, hg, hjp]
    · intro hg
      simp [parseResponse, h0, h1, hb, hg]

/-- C3, witness: the four interpretation outcomes at concrete inputs,
including a guard-matching text parsed into a valid envelope becoming its
tool_call. -/
theorem C3_witness :
    parseResponse (fun _ => none)
      { text := none, functionCall := some ⟨"calc", .jobj []⟩ } = .tool_call "calc" (.jobj [])
    ∧ parseResponse (fun _ => none) { text := some "hello" } = .final_answer "hello"
    ∧ parseResponse
        (fun _ => some (.jobj [("action", .jstr "tool"), ("toolName", .jstr "calc2"),
          ("toolArgs", .jobj [("a", .jnum 1)])]))
        { text := some "\x7b\"action\":\"tool\"\x7d" }
        = .tool_call "calc2" (.jobj [("a", .jnum 1)])
    ∧ parseResponse (fun _ => none) { text := some "\x7b\"action\":\"tool\"\x7d" }
        = .final_answer "\x7b\"action\":\"tool\"\x7d" := by
  refine ⟨(C3_theorem _ _).1 _ rfl, ?_, ?_, ?_⟩
  · exact ((C3_theorem _ _).2 "hello" rfl rfl (by decide)).2.2.2 (by decide)
  · have h := ((C3_theorem (fun _ => some (.jobj [("action", .jstr "tool"),
        ("toolName", .jstr "calc2"), ("toolArgs", .jobj [("a", .jnum 1)])]))
        { text := some "\x7b\"action\":\"tool\"\x7d" }).2 "\x7b\"action\":\"tool\"\x7d"
        rfl rfl (by decide)).2.1
        (.jobj [("action", .jstr "tool"), ("toolName", .jstr "calc2"),
          ("toolArgs", .jobj [("a", .jnum 1)])])
        (by decide) rfl rfl (by decide)
    exact h
  · exact ((C3_theorem _ _).2 _ rfl rfl (by decide)).2.2.1 (by decide) rfl

/-- C10, confirmed. When there is no structured function call and the text,
although starting with a brace, lacks the exact 14-character marker, the
parser returns the raw text as a final answer and the outcome is identical
for every JSON parser behaviour — JSON parsing is never attempted; the
envelope detection is an exact-substring match. -/
theorem C10_theorem :
    ∀ (jp jp2 : String → Option JValue) (r : UnifiedLLMResponse) (s : String),
      r.functionCall = none → r.text = some s → s ≠ "" →
      strStartsWith s "\x7b" = true →
      strContains s jsonToolMarker = false →
      parseResponse jp r = .final_answer s ∧ parseResponse jp r = parseResponse jp2 r := by
  intro jp jp2 r s h0 h1 h2 h3 h4
  have hg : envelopeGuard s = false := by
    unfold envelopeGuard
    rw [h4, Bool.and_false]
  have hb : (s != "") = true := bne_iff_ne.mpr h2
  constructor
  · simp [parseResponse, h0, h1, hb, hg]
  · simp [parseResponse, h0, h1, hb, hg]

/-- C10, witness: a valid tool envelope serialized with a space after the
colon is returned as a final answer, independently of the JSON parser. -/
theorem C10_witness :
    parseResponse (fun _ => some (.jobj [("action", .jstr "tool"), ("toolName", .jstr "x")]))
      { text := some "\x7b\"action\": \"tool\"\x7d" }
      = .final_answer "\x7b\"action\": \"tool\"\x7d"
    ∧ parseResponse (fun _ => some (.jobj [("action", .jstr "tool"), ("toolName", .jstr "x")]))
        { text := some "\x7b\"action\": \"tool\"\x7d" }
      = parseResponse (fun _ => none) { text := some "\x7b\"action\": \"tool\"\x7d" } :=
  C10_theorem _ _ _ _ rfl rfl (by decide) (by decide) (by decide)

/-- C4, code behaviour at the failing input. In a terminal run whose tool
returns an object with an `imageData` payload, the `resultText` stored in
the `ToolResult` message is the full stringification and still contains the
`imageData` field, while the sanitizer shipped in src/test_sanitization.js
(never invoked by AgentRunner.run) would have removed it; the raw object is
available through `resultData`. -/
theorem C4_code_behavior :
    strContains (resultTextAt (stepsOf exC4run) 2) "imageData" = true
    ∧ strContains (resultTextAt (stepsOf exC4run) 2) "BASE64DATA" = true
    ∧ resultDataAt (stepsOf exC4run) 2 = some perfC4
    ∧ strContains (stringifyJ (sanitizeToolResultForText perfC4)) "imageData" = false
    ∧ exC4run.terminationReason = some .final_answer :=
  ⟨by decide, by decide, by rfl, by decide, by decide⟩

/-- C5, counterexample. With the target flag unset the handoff result
carries no message log at all (`intermediateSteps` deleted), not the target
history alone: the same handoff against a target differing only in the flag
shows the target history is non-empty. -/
theorem C5_counterexample :
    exC5f.intermediateSteps = none
    ∧ exC5f.success = true
    ∧ exC5t.intermediateSteps = some [.user "hi", .user "hi", .modelFinal "ok" none] :=
  ⟨by rfl, by decide, by rfl⟩

/-- C5, amended. The target agent flag — the delegating agent configuration
is ignored entirely by the handoff — decides the returned log: when `true`
the result log is the pre-handoff history concatenated with the log the
target run returned; when `false` or unset the result carries no
`intermediateSteps` at all (the field is deleted), regardless of what the
target run returned. -/
theorem C5_theorem :
    ∀ (d : Nat) (reg : Registry) (gw : Gateway) (msgs : List ChatMessage) (args : JValue)
      (hc : HandoffConfig) (e1 e2 : Option AgentConfig) (dmn : String) (dmi : Nat) (dt : Int)
      (cs ce : String → List ChatMessage → TermReason → AgentResult) (largs : Option JValue)
      (t : RegTool) (tcfg : AgentConfig),
      reg hc.targetAgentName = some t → t.agentCfg = some tcfg →
      (executeHandoff d reg gw msgs args hc e1 dmn dmi dt cs ce largs
         = executeHandoff d reg gw msgs args hc e2 dmn dmi dt cs ce largs)
      ∧ (tcfg.includeIntermediateStepsOnReturn = some true →
          (executeHandoff d reg gw msgs args hc e1 dmn dmi dt cs ce largs).intermediateSteps
            = some (msgs ++
                stepsOf (targetRunOf d reg gw msgs args hc tcfg dmn dmi dt cs ce largs)))
      ∧ (tcfg.includeIntermediateStepsOnReturn ≠ some true →
          (executeHandoff d reg gw msgs args hc e1 dmn dmi dt cs ce largs).intermediateSteps
            = none) := by
  intro d reg gw msgs args hc e1 e2 dmn dmi dt cs ce largs t tcfg hreg hcfg
  refine ⟨rfl, ?_, ?_⟩
  · intro hflag
    have hq : (tcfg.includeIntermediateStepsOnReturn == some true) = true := by
      rw [hflag]; rfl
    simp only [executeHandoff, executeHandoffWith, hreg, hcfg, hq, if_true, targetRunOf,
      stepsOf]
  · intro hflag
    have hq : (tcfg.includeIntermediateStepsOnReturn == some true) = false :=
      beq_eq_false_iff_ne.mpr hflag
    simp only [executeHandoff, executeHandoffWith, hreg, hcfg, hq, Bool.false_eq_true,
      if_false]

/-- C5, witness: the flag-true case at a concrete handoff, with an ignored
delegator configuration. -/
theorem C5_witness :
    (executeHandoff 1 regC5 gwC5 [.user "hi"] (.jobj []) { targetAgentName := "Bt" } none
      "m" 3 0 defaultHooks.createSuccessResult defaultHooks.createErrorResult
      none).intermediateSteps
      = some ([ChatMessage.user "hi"] ++
          stepsOf (targetRunOf 1 regC5 gwC5 [.user "hi"] (.jobj [])
            { targetAgentName := "Bt" } bTrueC5 "m" 3 0
            defaultHooks.createSuccessResult defaultHooks.createErrorResult none)) :=
  (C5_theorem 1 regC5 gwC5 [.user "hi"] (.jobj []) { targetAgentName := "Bt" } none
    (some aCfgC1) "m" 3 0 defaultHooks.createSuccessResult defaultHooks.createErrorResult
    none _ bTrueC5 rfl rfl).2.1 rfl

/-- C7, counterexample. A run whose agent references an unregistered
handoff target does not refuse to start: it runs and ends successfully with
a final answer on the first iteration. -/
theorem C7_counterexample :
    exC7run.success = true
    ∧ exC7run.terminationReason = some .final_answer
    ∧ stepsOf exC7run = [.user "q", .modelFinal "46" none] :=
  ⟨by decide, by decide, by rfl⟩

/-- Folding the handoff-entry synthesis over rules whose targets are all
unregistered adds nothing. -/
theorem C7_handoffEntries_aux (reg : Registry) (hcs : List HandoffConfig)
    (h : ∀ hc ∈ hcs, reg hc.targetAgentName = none) :
    ∀ acc : List (String × RegTool),
      hcs.foldl (fun acc hc =>
        if isLLMTrigger hc.trigger then
          match reg hc.targetAgentName with
          | some t =>
            if t.agentCfg.isSome then acc ++ [("handoff_to_" ++ hc.targetAgentName, t)]
            else acc
          | none => acc
        else acc) acc = acc := by
  induction hcs with
  | nil => intro acc; rfl
  | cons hc rest ih =>
    intro acc
    have hh : reg hc.targetAgentName = none := h hc (List.mem_cons_self hc rest)
    have hrest : ∀ x ∈ rest, reg x.targetAgentName = none :=
      fun x hx => h x (List.mem_cons_of_mem hc hx)
    rcases ht : isLLMTrigger hc.trigger with _ | _
    · simp only [List.foldl_cons, ht, Bool.false_eq_true, if_false]
      exact ih hrest acc
    · simp only [List.foldl_cons, ht, if_true, hh]
      exact ih hrest acc

/-- C7, amended. A handoff rule whose target is not registered does not
prevent the run from starting: the setup merely synthesizes no
`handoff_to_X` tool for it (so the tool map has no such entry), the run
proceeds and can even end successfully on the first model reply, and only a
handoff actually attempted against the missing target produces an error
result, at handoff time. -/
theorem C7_theorem :
    (∀ (reg : Registry) (a : AgentConfig),
      (∀ hc ∈ a.handoffs.getD [], reg hc.targetAgentName = none) →
      handoffEntries reg (some a) = [])
    ∧ (∀ (reg : Registry) (a : AgentConfig) (tools : List RegTool) (nm : String),
        (∀ hc ∈ a.handoffs.getD [], reg hc.targetAgentName = none) →
        (∀ t ∈ tools, (t.name == nm) = false) →
        lookupTool (buildToolMap reg tools (some a)) nm = none)
    ∧ (∀ (d : Nat) (reg : Registry) (gw : Gateway) (msgs : List ChatMessage) (args : JValue)
        (hc : HandoffConfig) (e : Option AgentConfig) (dmn : String) (dmi : Nat) (dt : Int)
        (cs ce : String → List ChatMessage → TermReason → AgentResult) (largs : Option JValue),
        reg hc.targetAgentName = none →
        executeHandoff d reg gw msgs args hc e dmn dmi dt cs ce largs
          = ce ("Handoff target " ++ hc.targetAgentName ++
              " not found or is not a ConfigurableAgentTool.") msgs .error)
    ∧ (∀ (d : Nat) (reg : Registry) (gw : Gateway) (init : List ChatMessage) (args : JValue)
        (cfg : RunnerConfig) (hooks : RunnerHooks) (ea : Option AgentConfig) (ans : String)
        (rs : Option String) (k : Nat),
        cfg.maxIterations = k + 1 →
        gw ((ea.map AgentConfig.name).getD "Unknown") 0 = .ok ⟨.final_answer ans, rs⟩ →
        runDepth (d + 1) reg gw init args cfg hooks ea
          = hooks.createSuccessResult ans (prepMsgs hooks init ++ [.modelFinal ans rs])
              .final_answer) := by
  have hentries : ∀ (reg : Registry) (a : AgentConfig),
      (∀ hc ∈ a.handoffs.getD [], reg hc.targetAgentName = none) →
      handoffEntries reg (some a) = [] := by
    intro reg a h
    simp only [handoffEntries]
    exact C7_handoffEntries_aux reg _ h []
  refine ⟨hentries, ?_, ?_, ?_⟩
  · intro reg a tools nm h1 h2
    simp only [buildToolMap, hentries reg a h1, List.append_nil, lookupTool]
    rw [List.find?_eq_none.mpr]
    · rfl
    · intro p hp
      rw [List.mem_reverse] at hp
      rcases List.mem_map.mp hp with ⟨t, ht, hpt⟩
      subst hpt
      simp only [Bool.not_eq_true]
      exact h2 t ht
  · intro d reg gw msgs args hc e dmn dmi dt cs ce largs hreg
    simp only [executeHandoff, executeHandoffWith, hreg]
  · intro d reg gw init args cfg hooks ea ans rs k hmax hgw
    simp only [runDepth, hmax, loopF, hgw]

/-- C7, witness: with an unregistered target, no handoff tool is offered,
an attempted handoff errors, and a run of the same agent still starts and
completes. -/
theorem C7_witness :
    lookupTool (buildToolMap (fun _ => none) [] (some aCfgC7)) "handoff_to_Missing" = none
    ∧ executeHandoff 0 (fun _ => none) gwC7 [.user "q"] (.jobj [])
        { targetAgentName := "Missing" } none "m" 3 0
        defaultHooks.createSuccessResult defaultHooks.createErrorResult none
      = defaultHooks.createErrorResult
          ("Handoff target " ++ "Missing" ++
            " not found or is not a ConfigurableAgentTool.") [.user "q"] .error
    ∧ runDepth 1 (fun _ => none) gwC7 [.user "q"] (.jobj []) { maxIterations := 1 }
        defaultHooks (some aCfgC7)
      = defaultHooks.createSuccessResult "46"
          (prepMsgs defaultHooks [.user "q"] ++ [.modelFinal "46" none]) .final_answer := by
  refine ⟨?_, ?_, ?_⟩
  · exact C7_theorem.2.1 _ aCfgC7 [] _ (fun hc _ => rfl)
      (fun t ht => absurd ht (List.not_mem_nil t))
  · exact C7_theorem.2.2.1 0 (fun _ => none) gwC7 [.user "q"] (.jobj [])
      { targetAgentName := "Missing" } none "m" 3 0 defaultHooks.createSuccessResult
      defaultHooks.createErrorResult none rfl
  · exact C7_theorem.2.2.2 0 (fun _ => none) gwC7 [.user "q"] (.jobj [])
      { maxIterations := 1 } defaultHooks (some aCfgC7) "46" none 0 rfl rfl

/-- C6, confirmed. A failing ordinary tool never aborts the run: when the
tool returns a value classified as an error the loop appends the
`Model.Tool` and an error `ToolResult` and advances to the next iteration;
when the tool throws, likewise; and a run whose tool always fails ends with
the maximum-iterations outcome (never the error outcome) after using its
whole budget. -/
theorem C6_theorem :
    (∀ (gw : Gateway) (hooks : RunnerHooks) (ea : Option AgentConfig)
       (toolMap : List (String × RegTool))
       (hx : List ChatMessage → JValue → HandoffConfig → Option JValue → AgentResult)
       (args : JValue) (maxIter : Nat) (tname : String) (targs : JValue) (rs : Option String)
       (tt : RegTool) (v : JValue) (r it : Nat) (msgs : List ChatMessage) (nid : Nat),
      gw ((ea.map AgentConfig.name).getD "Unknown") it = .ok ⟨.tool_call tname targs, rs⟩ →
      lookupTool toolMap tname = some tt →
      (strStartsWith tname "handoff_to_" && tt.agentCfg.isSome) = false →
      tt.exec targs = .ok v →
      (toolOutcomeOf v).1 = true →
      loopF gw hooks ea toolMap hx args maxIter (r + 1) it msgs nid
        = loopF gw hooks ea toolMap hx args maxIter r (it + 1)
            (msgs ++ [.modelTool tname targs nid rs,
              .toolResult tname (toolOutcomeOf v).2 true (some nid)
                (if truthy v then some v else none)]) (nid + 1))
    ∧ (∀ (gw : Gateway) (hooks : RunnerHooks) (ea : Option AgentConfig)
        (toolMap : List (String × RegTool))
        (hx : List ChatMessage → JValue → HandoffConfig → Option JValue → AgentResult)
        (args : JValue) (maxIter : Nat) (tname : String) (targs : JValue) (rs : Option String)
        (tt : RegTool) (err : String) (r it : Nat) (msgs : List ChatMessage) (nid : Nat),
        gw ((ea.map AgentConfig.name).getD "Unknown") it = .ok ⟨.tool_call tname targs, rs⟩ →
        lookupTool toolMap tname = some tt →
        (strStartsWith tname "handoff_to_" && tt.agentCfg.isSome) = false →
        tt.exec targs = .error err →
        loopF gw hooks ea toolMap hx args maxIter (r + 1) it msgs nid
          = loopF gw hooks ea toolMap hx args maxIter r (it + 1)
              (msgs ++ [.modelTool tname targs nid rs,
                .toolResult tname ("Error during tool execution: " ++ err) true (some nid)
                  (some (.jobj [("error", .jstr ("Error during tool execution: " ++ err))]))])
              (nid + 1))
    ∧ (∀ (d : Nat) (reg : Registry) (gw : Gateway) (init : List ChatMessage) (args : JValue)
        (cfg : RunnerConfig) (hooks : RunnerHooks) (ea : Option AgentConfig)
        (tname : String) (targs : JValue) (rs : Option String) (tt : RegTool) (v : JValue),
        (∀ j, gw ((ea.map AgentConfig.name).getD "Unknown") j
          = .ok ⟨.tool_call tname targs, rs⟩) →
        lookupTool (buildToolMap reg cfg.tools ea) tname = some tt →
        (strStartsWith tname "handoff_to_" && tt.agentCfg.isSome) = false →
        tt.exec targs = .ok v →
        (toolOutcomeOf v).1 = true →
        handoffAtMax ea = none →
        runDepth (d + 1) reg gw init args cfg hooks ea
          = hooks.createErrorResult
              ("Agent reached maximum iterations (" ++ toString cfg.maxIterations ++ ")")
              (prepMsgs hooks init ++ toolBlocks tname targs rs v cfg.maxIterations
                (freshIdBase (prepMsgs hooks init)))
              .max_iterations) := by
  refine ⟨?_, ?_, ?_⟩
  · intro gw hooks ea toolMap hx args maxIter tname targs rs tt v r it msgs nid
      hgw hlk hhb hex herr
    rw [loopF_step_ok gw hooks ea toolMap hx args maxIter tname targs rs tt v r it msgs nid
      hgw hlk hhb hex, herr]
  · intro gw hooks ea toolMap hx args maxIter tname targs rs tt err r it msgs nid
      hgw hlk hhb hex
    exact loopF_step_throw gw hooks ea toolMap hx args maxIter tname targs rs tt err r it
      msgs nid hgw hlk hhb hex
  · intro d reg gw init args cfg hooks ea tname targs rs tt v hg hlk hhb hex herr hno
    simp only [runDepth]
    rw [loopF_descend gw hooks ea (buildToolMap reg cfg.tools ea) _ args cfg.maxIterations
      tname targs rs tt v hg hlk hhb hex cfg.maxIterations 0 _ _]
    rw [loopF_budget _ hooks ea _ _ args cfg.maxIterations hno]

/-- C6, witness: the always-failing tool exhausts the budget and ends with
the max-iterations reason. -/
theorem C6_witness :
    runDepth 1 (fun _ => none) gwC6 [.user "hi"] (.jobj []) cfgC6 defaultHooks none
      = defaultHooks.createErrorResult
          ("Agent reached maximum iterations (" ++ toString cfgC6.maxIterations ++ ")")
          (prepMsgs defaultHooks [.user "hi"] ++ toolBlocks "t" (.jobj []) none failObjC6
            cfgC6.maxIterations (freshIdBase (prepMsgs defaultHooks [.user "hi"])))
          .max_iterations :=
  C6_theorem.2.2 0 (fun _ => none) gwC6 [.user "hi"] (.jobj []) cfgC6 defaultHooks none
    "t" (.jobj []) none ttC6 failObjC6 (fun _ => rfl) rfl (by decide) rfl (by decide) rfl

/-- C8, confirmed. A gateway failure at any iteration appends one synthetic
`system_error` ToolResult (with no toolCallId) and returns the error result
immediately: no further iteration runs, and the outcome is the same for any
registry, any handoff-fuel and any gateway failing identically at that
call — there is no internal retry. -/
theorem C8_theorem :
    (∀ (gw : Gateway) (hooks : RunnerHooks) (ea : Option AgentConfig)
       (toolMap : List (String × RegTool))
       (hx : List ChatMessage → JValue → HandoffConfig → Option JValue → AgentResult)
       (args : JValue) (maxIter r it : Nat) (msgs : List ChatMessage) (nid : Nat) (e : String),
      gw ((ea.map AgentConfig.name).getD "Unknown") it = .error e →
      loopF gw hooks ea toolMap hx args maxIter (r + 1) it msgs nid
        = hooks.createErrorResult ("LLM call failed: " ++ e)
            (msgs ++ [.toolResult "system_error" ("LLM call failed: " ++ e) true none none])
            .error)
    ∧ (∀ (d : Nat) (reg : Registry) (gw : Gateway) (init : List ChatMessage) (args : JValue)
        (cfg : RunnerConfig) (hooks : RunnerHooks) (ea : Option AgentConfig) (e : String)
        (k : Nat),
        cfg.maxIterations = k + 1 →
        gw ((ea.map AgentConfig.name).getD "Unknown") 0 = .error e →
        runDepth (d + 1) reg gw init args cfg hooks ea
          = hooks.createErrorResult ("LLM call failed: " ++ e)
              (prepMsgs hooks init ++
                [.toolResult "system_error" ("LLM call failed: " ++ e) true none none])
              .error)
    ∧ (∀ (d1 d2 : Nat) (reg1 reg2 : Registry) (gw gw2 : Gateway) (init : List ChatMessage)
        (args : JValue) (cfg : RunnerConfig) (hooks : RunnerHooks) (ea : Option AgentConfig)
        (e : String) (k : Nat),
        cfg.maxIterations = k + 1 →
        gw ((ea.map AgentConfig.name).getD "Unknown") 0 = .error e →
        gw2 ((ea.map AgentConfig.name).getD "Unknown") 0 = .error e →
        runDepth (d1 + 1) reg1 gw init args cfg hooks ea
          = runDepth (d2 + 1) reg2 gw2 init args cfg hooks ea) := by
  have part1 : ∀ (gw : Gateway) (hooks : RunnerHooks) (ea : Option AgentConfig)
      (toolMap : List (String × RegTool))
      (hx : List ChatMessage → JValue → HandoffConfig → Option JValue → AgentResult)
      (args : JValue) (maxIter r it : Nat) (msgs : List ChatMessage) (nid : Nat) (e : String),
      gw ((ea.map AgentConfig.name).getD "Unknown") it = .error e →
      loopF gw hooks ea toolMap hx args maxIter (r + 1) it msgs nid
        = hooks.createErrorResult ("LLM call failed: " ++ e)
            (msgs ++ [.toolResult "system_error" ("LLM call failed: " ++ e) true none none])
            .error := by
    intro gw hooks ea toolMap hx args maxIter r it msgs nid e hgw
    simp only [loopF, hgw]
  have part2 : ∀ (d : Nat) (reg : Registry) (gw : Gateway) (init : List ChatMessage)
      (args : JValue) (cfg : RunnerConfig) (hooks : RunnerHooks) (ea : Option AgentConfig)
      (e : String) (k : Nat),
      cfg.maxIterations = k + 1 →
      gw ((ea.map AgentConfig.name).getD "Unknown") 0 = .error e →
      runDepth (d + 1) reg gw init args cfg hooks ea
        = hooks.createErrorResult ("LLM call failed: " ++ e)
            (prepMsgs hooks init ++
              [.toolResult "system_error" ("LLM call failed: " ++ e) true none none])
            .error := by
    intro d reg gw init args cfg hooks ea e k hmax hgw
    simp only [runDepth, hmax, loopF, hgw]
  refine ⟨part1, part2, ?_⟩
  intro d1 d2 reg1 reg2 gw gw2 init args cfg hooks ea e k hmax hgw hgw2
  rw [part2 d1 reg1 gw init args cfg hooks ea e k hmax hgw,
    part2 d2 reg2 gw2 init args cfg hooks ea e k hmax hgw2]

/-- C8, witness: a concrete failing gateway ends the run at once with the
synthetic error ToolResult appended. -/
theorem C8_witness :
    runDepth 1 (fun _ => none) gwC8x [.user "x"] (.jobj []) { maxIterations := 2 }
      defaultHooks none
      = defaultHooks.createErrorResult ("LLM call failed: " ++ "boom")
          (prepMsgs defaultHooks [.user "x"] ++
            [.toolResult "system_error" ("LLM call failed: " ++ "boom") true none none])
          .error :=
  C8_theorem.2.1 0 (fun _ => none) gwC8x [.user "x"] (.jobj []) { maxIterations := 2 }
    defaultHooks none "boom" 1 rfl rfl

/-- C9, confirmed. The loop body runs at most `maxIterations` times: for a
run without an executing-agent configuration the result is independent of
the gateway beyond iterations `0..maxIterations-1` (and of the registry and
the handoff fuel). When every reply calls an ordinary tool and no
`max_iterations` rule is configured, the run ends with the
maximum-iterations outcome after exactly `maxIterations` iterations (two
appended messages per iteration); with a `max_iterations` rule configured
the same exhausted run instead performs handoff resolution through
`executeHandoff`. -/
theorem C9_theorem :
    (∀ (d1 d2 : Nat) (reg1 reg2 : Registry) (gw gw2 : Gateway) (init : List ChatMessage)
       (args : JValue) (cfg : RunnerConfig) (hooks : RunnerHooks),
      (∀ j, j < cfg.maxIterations → gw "Unknown" j = gw2 "Unknown" j) →
      runDepth (d1 + 1) reg1 gw init args cfg hooks none
        = runDepth (d2 + 1) reg2 gw2 init args cfg hooks none)
    ∧ (∀ (d : Nat) (reg : Registry) (gw : Gateway) (init : List ChatMessage) (args : JValue)
        (cfg : RunnerConfig) (ea : Option AgentConfig) (tname : String) (targs : JValue)
        (rs : Option String) (tt : RegTool) (v : JValue),
        (∀ j, gw ((ea.map AgentConfig.name).getD "Unknown") j
          = .ok ⟨.tool_call tname targs, rs⟩) →
        lookupTool (buildToolMap reg cfg.tools ea) tname = some tt →
        (strStartsWith tname "handoff_to_" && tt.agentCfg.isSome) = false →
        tt.exec targs = .ok v →
        handoffAtMax ea = none →
        (runDepth (d + 1) reg gw init args cfg defaultHooks ea
          = defaultHooks.createErrorResult
              ("Agent reached maximum iterations (" ++ toString cfg.maxIterations ++ ")")
              (init ++ toolBlocks tname targs rs v cfg.maxIterations (freshIdBase init))
              .max_iterations)
        ∧ (stepsOf (runDepth (d + 1) reg gw init args cfg defaultHooks ea)).length
            = init.length + 2 * cfg.maxIterations)
    ∧ (∀ (d : Nat) (reg : Registry) (gw : Gateway) (init : List ChatMessage) (args : JValue)
        (cfg : RunnerConfig) (hooks : RunnerHooks) (ea : Option AgentConfig)
        (hc : HandoffConfig) (tname : String) (targs : JValue) (rs : Option String)
        (tt : RegTool) (v : JValue),
        (∀ j, gw ((ea.map AgentConfig.name).getD "Unknown") j
          = .ok ⟨.tool_call tname targs, rs⟩) →
        lookupTool (buildToolMap reg cfg.tools ea) tname = some tt →
        (strStartsWith tname "handoff_to_" && tt.agentCfg.isSome) = false →
        tt.exec targs = .ok v →
        handoffAtMax ea = some hc →
        runDepth (d + 1) reg gw init args cfg hooks ea
          = executeHandoff d reg gw
              (prepMsgs hooks init ++ toolBlocks tname targs rs v cfg.maxIterations
                (freshIdBase (prepMsgs hooks init)))
              args hc ea cfg.modelName cfg.maxIterations (cfg.temperature.getD 0)
              hooks.createSuccessResult hooks.createErrorResult none) := by
  refine ⟨?_, ?_, ?_⟩
  · intro d1 d2 reg1 reg2 gw gw2 init args cfg hooks h
    simp only [runDepth]
    have htm : buildToolMap reg1 cfg.tools none = buildToolMap reg2 cfg.tools none := rfl
    rw [htm]
    exact loopF_gw_congr gw gw2 hooks _ _ _ args cfg.maxIterations cfg.maxIterations 0 _ _
      (fun j h1 h2 => h j (by omega))
  · intro d reg gw init args cfg ea tname targs rs tt v hg hlk hhb hex hno
    have hprep : prepMsgs defaultHooks init = init := rfl
    have heq : runDepth (d + 1) reg gw init args cfg defaultHooks ea
        = defaultHooks.createErrorResult
            ("Agent reached maximum iterations (" ++ toString cfg.maxIterations ++ ")")
            (init ++ toolBlocks tname targs rs v cfg.maxIterations (freshIdBase init))
            .max_iterations := by
      simp only [runDepth, hprep]
      rw [loopF_descend gw defaultHooks ea (buildToolMap reg cfg.tools ea) _ args
        cfg.maxIterations tname targs rs tt v hg hlk hhb hex cfg.maxIterations 0 _ _]
      rw [loopF_budget _ defaultHooks ea _ _ args cfg.maxIterations hno]
    refine ⟨heq, ?_⟩
    rw [heq, stepsOf_defaultError, List.length_append,
      toolBlocks_length tname targs rs v cfg.maxIterations (freshIdBase init)]
  · intro d reg gw init args cfg hooks ea hc tname targs rs tt v hg hlk hhb hex hyes
    simp only [runDepth]
    rw [loopF_descend gw hooks ea (buildToolMap reg cfg.tools ea) _ args
      cfg.maxIterations tname targs rs tt v hg hlk hhb hex cfg.maxIterations 0 _ _]
    rw [loopF_budget_handoff gw hooks ea (buildToolMap reg cfg.tools ea) _ args
      cfg.maxIterations hc hyes]
    rfl

/-- C9, witness: depth-independence on a concrete run, and the exact-budget
outcome (two messages per iteration). -/
theorem C9_witness :
    (runDepth 1 (fun _ => none) gwC6 [.user "hi"] (.jobj []) cfgC6 defaultHooks none
      = runDepth 2 (fun _ => none) gwC6 [.user "hi"] (.jobj []) cfgC6 defaultHooks none)
    ∧ (stepsOf (runDepth 1 (fun _ => none) gwC6 [.user "hi"] (.jobj []) cfgC6
        defaultHooks none)).length
        = ([ChatMessage.user "hi"]).length + 2 * cfgC6.maxIterations :=
  ⟨C9_theorem.1 0 1 (fun _ => none) (fun _ => none) gwC6 gwC6 [.user "hi"] (.jobj [])
      cfgC6 defaultHooks (fun _ _ => rfl),
   (C9_theorem.2.1 0 (fun _ => none) gwC6 [.user "hi"] (.jobj []) cfgC6 none "t"
      (.jobj []) none ttC6 failObjC6 (fun _ => rfl) rfl (by decide) rfl rfl).2⟩

end BrowserOperator
